import Mathlib

/-!
Verification development for the hr_finder batch lookup tool (src/main.py).

Strings are modelled as `List Char` (Python `str`).  Fallible Python code
(functions that can raise an exception that escapes them) is modelled with
`Option`: `none` stands for an escaped exception.

The only part of the Python standard library that the script's core logic
depends on is `urllib.parse.urlparse`, and only on URLs that begin with the
literal `http://` or `https://` (clean_domain prepends `http://` otherwise).
We embed that code path of current CPython `urlsplit`:
  - the whole URL is first left-stripped of C0-control/space characters and
    all tab/CR/LF characters are removed anywhere in it;
  - `netloc` is the substring after `scheme://` up to the first `/`, `?`
    or `#`;
  - a netloc containing `[` without `]` (or vice versa) raises ValueError.
The NFKC netloc check (exotic Unicode only) and the bracketed-host
validation added in Python 3.11 are outside the model: both only turn more
inputs into exceptions and are never reachable from the inputs used below.
-/

set_option autoImplicit false

namespace HrFinder

/-- Python strings are modelled as lists of characters. -/
abbrev Str := List Char

/-- The literal string scheme prelude used by clean_domain. -/
def schemeHttp : Str := ("http://").data

/-- The https scheme prelude, recognised but never prepended. -/
def schemeHttps : Str := ("https://").data

/-- The four character host prelude stripped once by clean_domain. -/
def wwwDot : Str := ("www.").data

/-- CPython urlsplit removes every tab, CR and LF character from the URL. -/
def removeTabCrLf (s : Str) : Str :=
  s.filter (fun c => !(c == '\t' || c == '\r' || c == '\n'))

/-- CPython urlsplit left-strips WHATWG C0-control-or-space characters
(code points up to 0x20) from the URL. -/
def lstripC0 (s : Str) : Str :=
  s.dropWhile (fun c => decide (c.toNat ≤ 32))

/-- The characters that terminate the authority (netloc) component. -/
def isNetlocDelim (c : Char) : Bool :=
  c == '/' || c == '?' || c == '#'

/-- CPython urlsplit raises ValueError on a netloc with unbalanced square
brackets (the Invalid IPv6 URL check). -/
def bracketMismatch (netloc : Str) : Bool :=
  (netloc.contains '[' && !(netloc.contains ']')) ||
    (netloc.contains ']' && !(netloc.contains '['))

/-- The part of the URL following `http://` or `https://`. -/
def scheme_rest (url : Str) : Str :=
  if schemeHttps.isPrefixOf url then url.drop 8 else url.drop 7

/-- The authority component: everything after `scheme://` up to the first
`/`, `?` or `#`. -/
def raw_netloc (url : Str) : Str :=
  (scheme_rest url).takeWhile (fun c => !(isNetlocDelim c))

/-- The netloc (authority) component computed by `urllib.parse.urlparse`,
specialised to URLs that begin with `http://` or `https://` — the only
forms `clean_domain` ever passes to it.  `none` models a raised
ValueError (and, unreachably from `clean_domain`, a missing scheme). -/
def urlparse_netloc (url : Str) : Option Str :=
  if schemeHttp.isPrefixOf url || schemeHttps.isPrefixOf url then
    if bracketMismatch (raw_netloc url) then none else some (raw_netloc url)
  else
    none

/-- The scheme-prepending step of clean_domain: add a placeholder
`http://` when the raw input starts with neither `http://` nor
`https://` (line 48 of src/main.py). -/
def withScheme (s : Str) : Str :=
  if schemeHttp.isPrefixOf s || schemeHttps.isPrefixOf s then s
  else schemeHttp ++ s

/-- The string actually handed to urlparse for a raw input. -/
def parse_input (s : Str) : Str :=
  removeTabCrLf (lstripC0 (withScheme s))

/-- The netloc clean_domain extracts for a raw input. -/
def netloc_of (s : Str) : Option Str :=
  urlparse_netloc (parse_input s)

/-- The www-stripping step of clean_domain (lines 54-56): remove one
leading `www.` if present. -/
def www_strip (netloc : Str) : Str :=
  if wwwDot.isPrefixOf netloc then netloc.drop 4 else netloc

/-- The www-stripping step followed by the trailing-slash step
(lines 54-62) applied to the extracted netloc. -/
def strip_host (netloc : Str) : Str :=
  if (www_strip netloc).getLast? = some '/' then (www_strip netloc).dropLast
  else www_strip netloc

/-- Embedding of `clean_domain` (src/main.py lines 39-62): empty input is
returned as-is; otherwise the authority is extracted via urlparse, one
leading `www.` is removed, and one trailing `/` is removed.  `none`
models a ValueError escaping from urlparse. -/
def clean_domain (domain_input : Str) : Option Str :=
  if domain_input = [] then some []
  else (netloc_of domain_input).map strip_host

/-- clean_domain with the trailing-slash branch (lines 59-60) removed;
used to state that this branch is unreachable. -/
def clean_domain_nostrip (domain_input : Str) : Option Str :=
  if domain_input = [] then some []
  else (netloc_of domain_input).map www_strip

/-- ASCII lower-casing on character codes, used to state that two domains
differ only in letter case. -/
def lowerCode (c : Char) : Nat :=
  if 65 ≤ c.toNat ∧ c.toNat ≤ 90 then c.toNat + 32 else c.toNat

/-- ASCII model of the character class stripped by Python `str.strip()`
(Unicode whitespace beyond ASCII is not modelled; no claim depends on it). -/
def isPySpace (c : Char) : Bool :=
  c == ' ' || c == '\t' || c == '\n' || c == '\r' || c == '\x0b' || c == '\x0c'

/-- Embedding of Python `line.strip()` as used in read_domains_from_file. -/
def str_strip (s : Str) : Str :=
  ((s.dropWhile isPySpace).reverse.dropWhile isPySpace).reverse

/-- The per-line cleaning loop of `read_domains_from_file` (lines 72-76):
each line is stripped and cleaned; a ValueError escaping clean_domain is
caught by the surrounding handler, which exits the program (`none`). -/
def clean_lines : List Str → Option (List Str)
  | [] => some []
  | l :: rest =>
    match clean_domain (str_strip l) with
    | none => none
    | some c => (clean_lines rest).map (fun cs => c :: cs)

/-- Embedding of `read_domains_from_file` (lines 64-86) given the lines of
the input file: cleaned results are collected, empty ones discarded, and
duplicates collapse via the Python `set`.  Python set iteration order is
unspecified; the deduplicated collection is modelled as the
first-occurrence `dedup` of the cleaned sequence — every claim proved
about it (membership, distinctness, counts) is order-insensitive. -/
def read_domains_from_file (lines : List Str) : Option (List Str) :=
  (clean_lines lines).map (fun cs => (cs.filter (fun d => !d.isEmpty)).dedup)

/-! Part 2: JSON values and the response classifier. -/

/-- JSON values as produced by `response.json()` / `json.loads`.  Objects
are association lists looked up by first match (Python dicts have unique
keys, so the convention is immaterial). -/
inductive Json where
  | null
  | bool (b : Bool)
  | num (n : Int)
  | str (s : Str)
  | arr (elems : List Json)
  | obj (fields : List (Str × Json))

/-- Python `dict.get(key)` (returning `none` for a missing key) on the
fields of a JSON object. -/
def jget : List (Str × Json) → Str → Option Json
  | [], _ => none
  | (k, v) :: rest, key => if k = key then some v else jget rest key

/-- Key literals used by the script. -/
def kSuccess : Str := ("success").data

/-- The key holding the found-person object in a successful envelope. -/
def kResult : Str := ("result").data

/-- The key holding the API error code. -/
def kError : Str := ("error").data

/-- The key holding the API error explanation. -/
def kErrorExplained : Str := ("error_explained").data

/-- The "not available" sentinel written into unavailable CSV cells. -/
def NA : Json := Json.str (("N/A").data)

/-- Python `x is True` on the result of `dict.get`. -/
def isPyTrue : Option Json → Bool
  | some (Json.bool true) => true
  | _ => false

/-- Python `x is False` on the result of `dict.get`. -/
def isPyFalse : Option Json → Bool
  | some (Json.bool false) => true
  | _ => false

/-- Python `x is not None` on the result of `dict.get`: false both for a
missing key and for a JSON null value. -/
def isNonNull : Option Json → Bool
  | some Json.null => false
  | some _ => true
  | none => false

/-- DECISION_MAKER_CATEGORY (src/main.py line 14). -/
def category : Str := ("hr").data

/-- A response attached to a `requests.exceptions.RequestException`.
`status_code` is kept as the decimal string interpolated into messages;
`jsonBody` is the result of `e.response.json()`, `none` meaning the body
is not valid JSON (json.JSONDecodeError). -/
structure ErrResponse where
  status_code : Str
  text : Str
  jsonBody : Option Json

/-- The outcome of `requests.post` + `raise_for_status()` +
`response.json()` for one domain, i.e. which handler of
`search_decision_maker`'s try/except chain runs and the data it reads.
`success` means no exception was raised and the 2xx body parsed to
`body`. -/
inductive RequestOutcome where
  | success (body : Json)
  | timeout
  | connError
  | reqExc (resp : Option ErrResponse) (msg : Str)
  | otherExc (msg : Str)

/-- The error dictionaries built by search_decision_maker's handlers. -/
def mkErr (e ee : Json) : Json :=
  Json.obj [(kSuccess, Json.bool false), (kError, e), (kErrorExplained, ee)]

/-- Stand-in for the text of the Python AttributeError raised when
`error_details.get` is called on a non-dict JSON value; the exact
rendering depends on the runtime type name and no claim inspects it. -/
def attributeErrorText : Str :=
  ("object has no attribute get").data

/-- Embedding of `search_decision_maker` (src/main.py lines 88-140) as a
function of the request outcome: the happy path returns the parsed JSON
body, each handler returns its error dictionary.  The function is total:
the final bare `except Exception` means no exception escapes. -/
def search_decision_maker (o : RequestOutcome) : Json :=
  match o with
  | RequestOutcome.success body => body
  | RequestOutcome.timeout =>
    mkErr (Json.str (("timeout").data)) (Json.str (("Request timed out.").data))
  | RequestOutcome.connError =>
    mkErr (Json.str (("connection_error").data)) (Json.str (("Connection error.").data))
  | RequestOutcome.reqExc none msg =>
    mkErr (Json.str (("request_exception").data)) (Json.str msg)
  | RequestOutcome.reqExc (some r) msg =>
    match r.jsonBody with
    | some (Json.obj ed) =>
      mkErr ((jget ed kError).getD (Json.str (("request_exception").data)))
            ((jget ed kErrorExplained).getD (Json.str msg))
    | none =>
      mkErr (Json.str (("api_error").data))
            (Json.str ((("API returned status ").data) ++ r.status_code ++
              ((" with non-JSON body: ").data) ++ r.text.take 100 ++ (("...").data)))
    | some _ =>
      mkErr (Json.str (("api_error").data))
            (Json.str ((("API returned status ").data) ++ r.status_code ++
              ((" and parsing error: ").data) ++ attributeErrorText))
  | RequestOutcome.otherExc msg =>
    mkErr (Json.str (("unexpected_error").data)) (Json.str msg)

/-- One data row of the output CSV (src/main.py lines 210-221).  Cells
whose Python value can be any JSON value are kept as `Json`; `Json.str`
marks the cells the script fills with strings. -/
structure Row where
  domainSearched : Str
  categorySearched : Str
  foundName : Json
  foundEmail : Json
  emailVerified : Json
  jobTitle : Json
  linkedinUrl : Json
  searchSuccess : Str
  apiErrorType : Json
  apiErrorExplained : Json

/-- The row written for a successful find (lines 184-193). -/
def found_row (domain : Str) (person : List (Str × Json)) : Row :=
  { domainSearched := domain
    categorySearched := category
    foundName := (jget person (("personFullName").data)).getD NA
    foundEmail := (jget person (("email").data)).getD NA
    emailVerified := (jget person (("emailVerified").data)).getD (Json.bool false)
    jobTitle := (jget person (("personJobTitle").data)).getD NA
    linkedinUrl := (jget person (("personLinkedinUrl").data)).getD NA
    searchSuccess := ("True").data
    apiErrorType := NA
    apiErrorExplained := NA }

/-- The row written when the envelope reports `success == False`
(lines 195-199). -/
def api_error_row (domain : Str) (fields : List (Str × Json)) : Row :=
  { domainSearched := domain
    categorySearched := category
    foundName := NA
    foundEmail := NA
    emailVerified := NA
    jobTitle := NA
    linkedinUrl := NA
    searchSuccess := ("False").data
    apiErrorType := (jget fields kError).getD (Json.str (("Unknown").data))
    apiErrorExplained :=
      (jget fields kErrorExplained).getD (Json.str (("No explanation provided.").data)) }

/-- The row written for a successful call with no match or an unexpected
envelope shape (lines 201-206). -/
def no_result_row (domain : Str) : Row :=
  { domainSearched := domain
    categorySearched := category
    foundName := NA
    foundEmail := NA
    emailVerified := NA
    jobTitle := NA
    linkedinUrl := NA
    searchSuccess := ("False").data
    apiErrorType := Json.str (("no_result_found").data)
    apiErrorExplained :=
      Json.str (("API call successful but no result found or unexpected response structure.").data) }

/-- Embedding of the response-processing block of `main` (src/main.py
lines 174-221) for one domain.  `none` models an AttributeError escaping
`main` (calling `.get` on a non-dict), which aborts the run. -/
def process_response (domain : Str) (result : Json) : Option Row :=
  match result with
  | Json.obj fields =>
    if isPyTrue (jget fields kSuccess) && isNonNull (jget fields kResult) then
      match jget fields kResult with
      | some (Json.obj person) => some (found_row domain person)
      | _ => none
    else if isPyFalse (jget fields kSuccess) then
      some (api_error_row domain fields)
    else
      some (no_result_row domain)
  | _ => none

/-- The row produced for one domain under a given response oracle. -/
def lookup_row (respond : Str → RequestOutcome) (d : Str) : Option Row :=
  process_response d (search_decision_maker (respond d))

/-- The data rows of the output CSV produced by `main`'s loop
(lines 167-224) over the deduplicated domain list: each iteration writes
its row immediately; an exception escaping an iteration aborts the run,
leaving only the rows already written. -/
def run_rows (respond : Str → RequestOutcome) : List Str → List Row
  | [] => []
  | d :: rest =>
    if d = [] then run_rows respond rest
    else
      match lookup_row respond d with
      | none => []
      | some row => row :: run_rows respond rest

/-- The `error` field of the remote response body for an outcome, when
there is one: the claims call its value an API-reported error code passed
through to the row. -/
def body_error_field (o : RequestOutcome) : Option Json :=
  match o with
  | RequestOutcome.success (Json.obj fs) => jget fs kError
  | RequestOutcome.reqExc (some r) _ =>
    match r.jsonBody with
    | some (Json.obj ed) => jget ed kError
    | _ => none
  | _ => none

/-- The error kinds the spec's taxonomy allows the script itself to
generate (C2's list, beyond pass-through API codes). -/
def listed_kinds : List Str :=
  [("timeout").data, ("connection_error").data, ("api_error").data,
   ("unexpected_error").data, ("no_result_found").data]

/-- The script-generated error kinds that actually occur: the spec's list
plus `request_exception` and `Unknown`. -/
def actual_kinds : List Str :=
  listed_kinds ++ [("request_exception").data, ("Unknown").data]

/-! Part 3: concrete instances used by witnesses and counterexamples. -/

/-- The spec's classifier scenario: a successful envelope for Jane Doe. -/
def janePerson : List (Str × Json) :=
  [((("personFullName").data), Json.str (("Jane Doe").data)),
   ((("email").data), Json.str (("jane@a.com").data)),
   ((("emailVerified").data), Json.bool true),
   ((("personJobTitle").data), Json.str (("HR Manager").data)),
   ((("personLinkedinUrl").data), Json.str (("https://linkedin.com/in/jane").data))]

/-- The envelope fields of the Jane Doe scenario. -/
def janeFields : List (Str × Json) :=
  [(kSuccess, Json.bool true), (kResult, Json.obj janePerson)]

/-- The spec's classifier scenario: a `success == false` envelope with a
`not_found` error. -/
def nfFields : List (Str × Json) :=
  [(kSuccess, Json.bool false), (kError, Json.str (("not_found").data)),
   (kErrorExplained, Json.str (("No decision maker found").data))]

/-- A 2xx envelope whose error fields are themselves the literal `N/A`. -/
def naFields : List (Str × Json) :=
  [(kSuccess, Json.bool false), (kError, Json.str (("N/A").data)),
   (kErrorExplained, Json.str (("N/A").data))]

/-- A 404 whose JSON error body is the empty object — it has no `error`
field for the handler to pass through. -/
def reqExcEmptyBody : RequestOutcome :=
  RequestOutcome.reqExc
    (some { status_code := ("404").data, text := ("\x7b\x7d").data,
            jsonBody := some (Json.obj []) })
    (("404 Client Error: Not Found").data)

/-- The row a timed-out lookup for `a.com` produces. -/
def timeoutRow : Row :=
  api_error_row (("a.com").data)
    [(kSuccess, Json.bool false), (kError, Json.str (("timeout").data)),
     (kErrorExplained, Json.str (("Request timed out.").data))]

/-- The row a connection failure for `b.com` produces. -/
def connRow : Row :=
  api_error_row (("b.com").data)
    [(kSuccess, Json.bool false), (kError, Json.str (("connection_error").data)),
     (kErrorExplained, Json.str (("Connection error.").data))]

/-! Part 4: helper lemmas. -/

/-- An element witnessed by `getLast?` is a member of the list. -/
lemma mem_of_getLast_some {l : Str} {a : Char} (h : l.getLast? = some a) : a ∈ l := by
  induction l with
  | nil => simp [List.getLast?] at h
  | cons b bs ih =>
    cases bs with
    | nil =>
      simp [List.getLast?] at h
      simp [h]
    | cons c cs =>
      rw [List.getLast?_cons_cons] at h
      exact List.mem_cons_of_mem _ (ih h)

/-- A list is an append extension of any of its `isPrefixOf` witnesses. -/
lemma isPrefixOf_exists_append {p l : Str} (h : p.isPrefixOf l = true) :
    ∃ t, l = p ++ t := by
  induction p generalizing l with
  | nil => exact ⟨l, rfl⟩
  | cons a as ih =>
    cases l with
    | nil => simp [List.isPrefixOf] at h
    | cons b bs =>
      simp only [List.isPrefixOf, Bool.and_eq_true, beq_iff_eq] at h
      obtain ⟨t, ht⟩ := ih h.2
      exact ⟨t, by simp [h.1, ht]⟩

/-- Every list `isPrefixOf` its append extensions. -/
lemma isPrefixOf_append_self (p s : Str) : p.isPrefixOf (p ++ s) = true := by
  induction p with
  | nil => cases s <;> rfl
  | cons a as ih => simp [List.isPrefixOf, ih]

/-- The authority component stops at the first `/`, `?` or `#`, so it
never contains a slash. -/
lemma raw_netloc_no_slash (url : Str) : '/' ∉ raw_netloc url := by
  intro hm
  have := List.mem_takeWhile_imp hm
  simp [isNetlocDelim] at this

/-- The netloc computed by urlparse never contains a slash. -/
lemma netloc_no_slash {url n : Str} (h : urlparse_netloc url = some n) : '/' ∉ n := by
  unfold urlparse_netloc at h
  split at h
  · split at h
    · simp at h
    · injection h with h'
      subst h'
      exact raw_netloc_no_slash url
  · simp at h

/-- The netloc clean_domain extracts never contains a slash. -/
lemma netloc_of_no_slash {s n : Str} (h : netloc_of s = some n) : '/' ∉ n :=
  netloc_no_slash h

/-- www-stripping cannot introduce a slash. -/
lemma www_strip_no_slash {n : Str} (h : '/' ∉ n) : '/' ∉ www_strip n := by
  unfold www_strip
  split
  · exact fun hm => h (List.mem_of_mem_drop hm)
  · exact h

/-- On a slash-free netloc the trailing-slash branch never fires. -/
lemma strip_host_eq_www_strip {n : Str} (h : '/' ∉ n) :
    strip_host n = www_strip n := by
  unfold strip_host
  split
  · next hl => exact absurd (mem_of_getLast_some hl) (www_strip_no_slash h)
  · rfl

/-- clean_domain and its slash-branch-free variant agree everywhere. -/
lemma clean_eq_nostrip (s : Str) : clean_domain s = clean_domain_nostrip s := by
  unfold clean_domain clean_domain_nostrip
  split
  · rfl
  · cases hn : netloc_of s with
    | none => rfl
    | some n => simp [strip_host_eq_www_strip (netloc_of_no_slash hn)]

/-- Inversion for clean_domain: a returned value is either the empty
string (empty input) or the www-stripped netloc of the input. -/
lemma clean_domain_inv {s r : Str} (h : clean_domain s = some r) :
    (s = [] ∧ r = []) ∨
      ∃ n, netloc_of s = some n ∧ '/' ∉ n ∧ r = www_strip n := by
  unfold clean_domain at h
  split at h
  · next hs => injection h with h'; exact Or.inl ⟨hs, h'.symm⟩
  · cases hn : netloc_of s with
    | none => rw [hn] at h; exact absurd h (by simp)
    | some n =>
      rw [hn] at h
      have hns := netloc_of_no_slash hn
      injection h with h'
      exact Or.inr ⟨n, rfl, hns, by rw [← h', strip_host_eq_www_strip hns]⟩

/-- The value returned by clean_domain never contains a slash. -/
lemma clean_domain_no_slash {s r : Str} (h : clean_domain s = some r) :
    '/' ∉ r := by
  rcases clean_domain_inv h with ⟨_, hr⟩ | ⟨n, _, hns, hr⟩
  · subst hr; simp
  · subst hr; exact www_strip_no_slash hns

/-- Destructuring read_domains_from_file into the cleaning pass and the
dedup pass. -/
lemma read_domains_inv {lines ds : List Str}
    (h : read_domains_from_file lines = some ds) :
    ∃ cs, clean_lines lines = some cs ∧
      ds = (cs.filter (fun d => !d.isEmpty)).dedup := by
  unfold read_domains_from_file at h
  cases hc : clean_lines lines with
  | none => rw [hc] at h; simp at h
  | some cs =>
    rw [hc] at h
    injection h with h'
    exact ⟨cs, rfl, h'.symm⟩

/-- The deduplicated domain list has no duplicates. -/
lemma read_domains_nodup {lines ds : List Str}
    (h : read_domains_from_file lines = some ds) : ds.Nodup := by
  obtain ⟨cs, _, hds⟩ := read_domains_inv h
  rw [hds]
  exact List.nodup_dedup _

/-- Every domain in the deduplicated list is non-empty. -/
lemma read_domains_ne_nil {lines ds : List Str}
    (h : read_domains_from_file lines = some ds) : ∀ d ∈ ds, d ≠ [] := by
  obtain ⟨cs, _, hds⟩ := read_domains_inv h
  subst hds
  intro d hd
  have hf := List.mem_dedup.mp hd
  have := List.mem_filter.mp hf
  simpa using this.2

/-- A line that cleans to a value contributes that value to the cleaning
pass's output. -/
lemma clean_lines_mem {lines cs : List Str} {l c : Str}
    (h : clean_lines lines = some cs) (hl : l ∈ lines)
    (hc : clean_domain (str_strip l) = some c) : c ∈ cs := by
  induction lines generalizing cs with
  | nil => cases hl
  | cons a rest ih =>
    unfold clean_lines at h
    cases ha : clean_domain (str_strip a) with
    | none => rw [ha] at h; simp at h
    | some ca =>
      rw [ha] at h
      cases hr : clean_lines rest with
      | none => rw [hr] at h; simp at h
      | some crest =>
        rw [hr] at h
        injection h with h'
        subst h'
        rcases List.mem_cons.mp hl with rfl | hl'
        · rw [ha] at hc; injection hc with hc'; simp [hc']
        · exact List.mem_cons_of_mem _ (ih hr hl')

/-- A non-empty cleaned value of some input line is a member of the
deduplicated domain list. -/
lemma read_domains_mem {lines ds : List Str} {l d : Str}
    (h : read_domains_from_file lines = some ds) (hl : l ∈ lines)
    (hc : clean_domain (str_strip l) = some d) (hne : d ≠ []) : d ∈ ds := by
  obtain ⟨cs, hcs, hds⟩ := read_domains_inv h
  subst hds
  apply List.mem_dedup.mpr
  apply List.mem_filter.mpr
  exact ⟨clean_lines_mem hcs hl hc, by simpa using hne⟩

/-- Characterisation of the Python `is True` test. -/
lemma isPyTrue_iff {x : Option Json} :
    isPyTrue x = true ↔ x = some (Json.bool true) := by
  cases x with
  | none => simp [isPyTrue]
  | some v =>
    cases v with
    | bool b => cases b <;> simp [isPyTrue]
    | null => simp [isPyTrue]
    | num n => simp [isPyTrue]
    | str s => simp [isPyTrue]
    | arr xs => simp [isPyTrue]
    | obj fs => simp [isPyTrue]

/-- Characterisation of the Python `is False` test. -/
lemma isPyFalse_iff {x : Option Json} :
    isPyFalse x = true ↔ x = some (Json.bool false) := by
  cases x with
  | none => simp [isPyFalse]
  | some v =>
    cases v with
    | bool b => cases b <;> simp [isPyFalse]
    | null => simp [isPyFalse]
    | num n => simp [isPyFalse]
    | str s => simp [isPyFalse]
    | arr xs => simp [isPyFalse]
    | obj fs => simp [isPyFalse]

/-- Branch lemma: a truthy envelope with a non-null object result yields
the found row (src/main.py lines 184-193). -/
lemma process_found {d : Str} {fs person : List (Str × Json)}
    (hs : jget fs kSuccess = some (Json.bool true))
    (hr : jget fs kResult = some (Json.obj person)) :
    process_response d (Json.obj fs) = some (found_row d person) := by
  simp only [process_response]
  rw [hs, hr]
  rfl

/-- Branch lemma: an envelope with `success == False` yields the error
row (src/main.py lines 195-199). -/
lemma process_api_error {d : Str} {fs : List (Str × Json)}
    (hs : jget fs kSuccess = some (Json.bool false)) :
    process_response d (Json.obj fs) = some (api_error_row d fs) := by
  simp only [process_response]
  rw [hs]
  rfl

/-- The classifier applied to any handler-built error dictionary yields
an error row carrying exactly the handler's error values. -/
lemma process_mkErr (d : Str) (e ee : Json) :
    process_response d (mkErr e ee) =
      some (api_error_row d
        [(kSuccess, Json.bool false), (kError, e), (kErrorExplained, ee)]) := rfl

/-- The error type and explanation cells an error dictionary produces. -/
lemma api_error_row_mkErr_fields (d : Str) (e ee : Json) :
    (api_error_row d
        [(kSuccess, Json.bool false), (kError, e), (kErrorExplained, ee)]).apiErrorType = e ∧
    (api_error_row d
        [(kSuccess, Json.bool false), (kError, e), (kErrorExplained, ee)]).apiErrorExplained = ee :=
  ⟨rfl, rfl⟩

/-- Inversion for the per-domain classification: every produced row is a
found row, an api-error row for the envelope's fields, or the no-result
row. -/
lemma process_search_inv {d : Str} {o : RequestOutcome} {row : Row}
    (h : process_response d (search_decision_maker o) = some row) :
    (∃ person, row = found_row d person) ∨
    (∃ fs, search_decision_maker o = Json.obj fs ∧
      jget fs kSuccess = some (Json.bool false) ∧ row = api_error_row d fs) ∨
    row = no_result_row d := by
  rcases ho : search_decision_maker o with _ | _ | _ | _ | _ | fields
  all_goals rw [ho] at h
  all_goals try simp [process_response] at h
  by_cases h1 : (isPyTrue (jget fields kSuccess) && isNonNull (jget fields kResult)) = true
  · rw [process_response, if_pos h1] at h
    cases hr : jget fields kResult with
    | none => rw [hr] at h; simp at h
    | some v =>
      rw [hr] at h
      cases v with
      | obj person =>
        injection h with h'
        exact Or.inl ⟨person, h'.symm⟩
      | null => simp at h
      | bool b => simp at h
      | num n => simp at h
      | str s => simp at h
      | arr xs => simp at h
  · rw [process_response, if_neg h1] at h
    by_cases h2 : isPyFalse (jget fields kSuccess) = true
    · rw [if_pos h2] at h
      injection h with h'
      exact Or.inr (Or.inl ⟨fields, rfl, isPyFalse_iff.mp h2, h'.symm⟩)
    · rw [if_neg h2] at h
      injection h with h'
      exact Or.inr (Or.inr h'.symm)

/-- Every row the classifier produces records the searched domain. -/
lemma domain_of_process {d : Str} {o : RequestOutcome} {row : Row}
    (h : process_response d (search_decision_maker o) = some row) :
    row.domainSearched = d := by
  rcases process_search_inv h with ⟨p, rfl⟩ | ⟨fs, _, _, rfl⟩ | rfl <;> rfl

/-- When no lookup crashes, the loop writes exactly one row per domain,
in order: the Domain Searched column lists the domains themselves. -/
lemma run_rows_domains {respond : Str → RequestOutcome} {ds : List Str}
    (hne : ∀ d ∈ ds, d ≠ [])
    (hok : ∀ d ∈ ds, (lookup_row respond d).isSome) :
    (run_rows respond ds).map (fun r => r.domainSearched) = ds := by
  induction ds with
  | nil => rfl
  | cons d rest ih =>
    have hd : d ≠ [] := hne d (List.mem_cons_self d rest)
    unfold run_rows
    rw [if_neg hd]
    cases hl : lookup_row respond d with
    | none =>
      have := hok d (List.mem_cons_self d rest)
      rw [hl] at this
      simp at this
    | some row =>
      have hdom : row.domainSearched = d := domain_of_process hl
      have hrest := ih (fun x hx => hne x (List.mem_cons_of_mem d hx))
        (fun x hx => hok x (List.mem_cons_of_mem d hx))
      simp [hdom, hrest]

/-- In a duplicate-free list every member is counted exactly once. -/
lemma countP_eq_one_of_nodup {ds : List Str} {d : Str}
    (hn : ds.Nodup) (hm : d ∈ ds) :
    ds.countP (fun x => decide (x = d)) = 1 := by
  induction ds with
  | nil => cases hm
  | cons a rest ih =>
    have hna := List.nodup_cons.mp hn
    rw [List.countP_cons]
    by_cases ha : a = d
    · subst ha
      have hz : rest.countP (fun x => decide (x = a)) = 0 := by
        rw [List.countP_eq_zero]
        intro x hx
        simp only [decide_eq_true_eq]
        intro hxa
        exact hna.1 (hxa ▸ hx)
      simp [hz]
    · rcases List.mem_cons.mp hm with rfl | hm'
      · exact absurd rfl ha
      · rw [ih hna.2 hm']
        simp [ha]

/-- Each domain of a duplicate-free, crash-free run is the Domain
Searched value of exactly one written row. -/
lemma run_rows_countP {respond : Str → RequestOutcome} {ds : List Str} {d : Str}
    (hn : ds.Nodup) (hne : ∀ x ∈ ds, x ≠ [])
    (hok : ∀ x ∈ ds, (lookup_row respond x).isSome) (hm : d ∈ ds) :
    (run_rows respond ds).countP (fun r => decide (r.domainSearched = d)) = 1 := by
  have hmap := run_rows_domains hne hok
  have hcp : (run_rows respond ds).countP (fun r => decide (r.domainSearched = d)) =
      ((run_rows respond ds).map (fun r => r.domainSearched)).countP
        (fun x => decide (x = d)) := by
    rw [List.countP_map]
    rfl
  rw [hcp, hmap]
  exact countP_eq_one_of_nodup hn hm

/-- A crash-free run writes as many rows as there are domains. -/
lemma run_rows_length {respond : Str → RequestOutcome} {ds : List Str}
    (hne : ∀ x ∈ ds, x ≠ [])
    (hok : ∀ x ∈ ds, (lookup_row respond x).isSome) :
    (run_rows respond ds).length = ds.length := by
  have hmap := run_rows_domains hne hok
  calc (run_rows respond ds).length
      = ((run_rows respond ds).map (fun r => r.domainSearched)).length :=
        (List.length_map _ _).symm
    _ = ds.length := by rw [hmap]

/-- The error value of every envelope the dispatcher can hand to the
classifier: either a kind the script generates itself (a member of
`actual_kinds`), or a pass-through of the remote body's `error` field, or
absent (in which case the classifier falls back to `Unknown`). -/
lemma search_error_shape {o : RequestOutcome} {fs : List (Str × Json)}
    (hfs : search_decision_maker o = Json.obj fs) :
    (∃ k, k ∈ actual_kinds ∧ jget fs kError = some (Json.str k)) ∨
    (∃ v, body_error_field o = some v ∧ jget fs kError = some v) ∨
    jget fs kError = none := by
  cases o with
  | success body =>
    cases body with
    | obj fs' =>
      simp only [search_decision_maker] at hfs
      injection hfs with h'
      subst h'
      cases he : jget fs' kError with
      | none => exact Or.inr (Or.inr rfl)
      | some v => exact Or.inr (Or.inl ⟨v, by simp [body_error_field, he], rfl⟩)
    | null => simp [search_decision_maker] at hfs
    | bool b => simp [search_decision_maker] at hfs
    | num n => simp [search_decision_maker] at hfs
    | str s => simp [search_decision_maker] at hfs
    | arr xs => simp [search_decision_maker] at hfs
  | timeout =>
    simp only [search_decision_maker, mkErr] at hfs
    injection hfs with h'
    subst h'
    exact Or.inl ⟨("timeout").data, by decide, rfl⟩
  | connError =>
    simp only [search_decision_maker, mkErr] at hfs
    injection hfs with h'
    subst h'
    exact Or.inl ⟨("connection_error").data, by decide, rfl⟩
  | otherExc msg =>
    simp only [search_decision_maker, mkErr] at hfs
    injection hfs with h'
    subst h'
    exact Or.inl ⟨("unexpected_error").data, by decide, rfl⟩
  | reqExc resp msg =>
    cases resp with
    | none =>
      simp only [search_decision_maker, mkErr] at hfs
      injection hfs with h'
      subst h'
      exact Or.inl ⟨("request_exception").data, by decide, rfl⟩
    | some r =>
      cases r with
      | mk sc tx jb =>
        cases jb with
        | none =>
          simp only [search_decision_maker, mkErr] at hfs
          injection hfs with h'
          subst h'
          exact Or.inl ⟨("api_error").data, by decide, rfl⟩
        | some ebody =>
          cases ebody with
          | obj ed =>
            simp only [search_decision_maker, mkErr] at hfs
            injection hfs with h'
            subst h'
            cases he : jget ed kError with
            | none =>
              refine Or.inl ⟨("request_exception").data, by decide, ?_⟩
              simp [jget, kSuccess, kError, he]
            | some v =>
              refine Or.inr (Or.inl ⟨v, ?_, ?_⟩)
              · simp [body_error_field, he]
              · simp [jget, kSuccess, kError, he]
          | null =>
            simp only [search_decision_maker, mkErr] at hfs
            injection hfs with h'
            subst h'
            exact Or.inl ⟨("api_error").data, by decide, rfl⟩
          | bool b =>
            simp only [search_decision_maker, mkErr] at hfs
            injection hfs with h'
            subst h'
            exact Or.inl ⟨("api_error").data, by decide, rfl⟩
          | num n =>
            simp only [search_decision_maker, mkErr] at hfs
            injection hfs with h'
            subst h'
            exact Or.inl ⟨("api_error").data, by decide, rfl⟩
          | str s =>
            simp only [search_decision_maker, mkErr] at hfs
            injection hfs with h'
            subst h'
            exact Or.inl ⟨("api_error").data, by decide, rfl⟩
          | arr xs =>
            simp only [search_decision_maker, mkErr] at hfs
            injection hfs with h'
            subst h'
            exact Or.inl ⟨("api_error").data, by decide, rfl⟩

/-! Part 5: claim theorems. -/

/-- C10: for every input string the value returned by clean_domain
contains no slash character — the authority component extracted by URL
parsing cannot contain one — so the trailing-slash-stripping branch of
clean_domain is unreachable: clean_domain agrees everywhere with the
variant lacking that branch, and the branch's condition is false
whenever it is evaluated. -/
theorem C10_slash_branch_unreachable (s : Str) :
    clean_domain s = clean_domain_nostrip s ∧
    (∀ n, netloc_of s = some n → (www_strip n).getLast? ≠ some '/') ∧
    (∀ r, clean_domain s = some r → '/' ∉ r) := by
  refine ⟨clean_eq_nostrip s, ?_, ?_⟩
  · intro n hn hl
    exact www_strip_no_slash (netloc_of_no_slash hn) (mem_of_getLast_some hl)
  · intro r hr
    exact clean_domain_no_slash hr

/-- Witness for C10 at the concrete input `a.com/x`. -/
theorem C10_slash_branch_unreachable_witness :
    netloc_of (("a.com/x").data) = some (("a.com").data) ∧
    (www_strip (("a.com").data)).getLast? ≠ some '/' ∧
    clean_domain (("a.com/x").data) = some (("a.com").data) ∧
    '/' ∉ (("a.com").data) :=
  ⟨by decide,
   (C10_slash_branch_unreachable (("a.com/x").data)).2.1 _ (by decide),
   by decide,
   (C10_slash_branch_unreachable (("a.com/x").data)).2.2 _ (by decide)⟩

/-- C8: for every raw input starting with neither `http://` nor
`https://`, cleaning it gives the same result as cleaning the input with
the literal prefix `http://` prepended. -/
theorem C8_scheme_normalization (s : Str)
    (h1 : schemeHttp.isPrefixOf s = false)
    (h2 : schemeHttps.isPrefixOf s = false) :
    clean_domain s = clean_domain (schemeHttp ++ s) := by
  by_cases hs : s = []
  · subst hs
    decide
  · have ht : schemeHttp ++ s ≠ [] := by
      intro habs
      exact hs (List.append_eq_nil.mp habs).2
    have hc1 : (schemeHttp.isPrefixOf (schemeHttp ++ s) ||
        schemeHttps.isPrefixOf (schemeHttp ++ s)) = true := by
      simp [isPrefixOf_append_self]
    have hc2 : ¬ ((schemeHttp.isPrefixOf s || schemeHttps.isPrefixOf s) = true) := by
      simp [h1, h2]
    have hws : withScheme (schemeHttp ++ s) = withScheme s := by
      unfold withScheme
      rw [if_pos hc1, if_neg hc2]
    have hnet : netloc_of (schemeHttp ++ s) = netloc_of s := by
      unfold netloc_of parse_input
      rw [hws]
    unfold clean_domain
    rw [if_neg hs, if_neg ht, hnet]

/-- Witness for C8 at the concrete input `example.com`. -/
theorem C8_scheme_normalization_witness :
    schemeHttp.isPrefixOf (("example.com").data) = false ∧
    schemeHttps.isPrefixOf (("example.com").data) = false ∧
    clean_domain (("example.com").data) =
      clean_domain (schemeHttp ++ (("example.com").data)) :=
  ⟨by decide, by decide, C8_scheme_normalization _ (by decide) (by decide)⟩

/-- C4 as stated is false: a single-space input is whitespace-only and
non-empty, and clean_domain returns the space itself, not the empty
string — the space survives inside the parsed URL's authority. -/
theorem C4_counterexample :
    clean_domain ([' ']) = some ([' ']) ∧ ([' '] : Str) ≠ [] := by decide

/-- C4 amended: clean_domain returns the empty string on empty input; a
whitespace-only string is in general returned, not emptied, but at the
only call site every line is stripped before cleaning, so whitespace-only
lines are cleaned as the empty string. -/
theorem C4_amended (s : Str) (h : ∀ c ∈ s, isPySpace c = true) :
    clean_domain [] = some [] ∧ clean_domain (str_strip s) = some [] := by
  refine ⟨rfl, ?_⟩
  have h1 : s.dropWhile isPySpace = [] := by
    apply List.dropWhile_eq_nil_iff.mpr
    intro x hx
    exact h x hx
  have hnil : str_strip s = [] := by
    unfold str_strip
    rw [h1]
    rfl
  rw [hnil]
  rfl

/-- Witness for the amended C4 at a single-space line. -/
theorem C4_amended_witness :
    (∀ c ∈ ((" ").data), isPySpace c = true) ∧
    clean_domain [] = some [] ∧
    clean_domain (str_strip ((" ").data)) = some [] :=
  ⟨by decide, C4_amended ((" ").data) (by decide)⟩

/-- C5 as stated is false: clean_domain strips only the first leading
`www.`, so cleaning `www.www.example.com` yields a value that still
starts with the exact 4-character prefix `www.`. -/
theorem C5_counterexample :
    clean_domain (("www.www.example.com").data) =
      some (("www.example.com").data) ∧
    wwwDot.isPrefixOf (("www.example.com").data) = true := by decide

/-- C5 amended: every value clean_domain returns contains no slash (hence
no scheme prefix and no trailing slash), and exactly one leading `www.`
is stripped — the value starts with `www.` only as the residue of a
netloc that began with a doubled `www.`. -/
theorem C5_amended (s r : Str) (h : clean_domain s = some r) :
    '/' ∉ r ∧ r.getLast? ≠ some '/' ∧
    schemeHttp.isPrefixOf r = false ∧ schemeHttps.isPrefixOf r = false ∧
    (wwwDot.isPrefixOf r = true →
      ∃ n, netloc_of s = some n ∧ wwwDot.isPrefixOf n = true ∧ r = n.drop 4) := by
  have hslash : '/' ∉ r := clean_domain_no_slash h
  refine ⟨hslash, ?_, ?_, ?_, ?_⟩
  · intro hl
    exact hslash (mem_of_getLast_some hl)
  · cases hx : schemeHttp.isPrefixOf r with
    | false => rfl
    | true =>
      obtain ⟨t, ht⟩ := isPrefixOf_exists_append hx
      refine (hslash ?_).elim
      rw [ht]
      exact List.mem_append_left _ (by decide)
  · cases hx : schemeHttps.isPrefixOf r with
    | false => rfl
    | true =>
      obtain ⟨t, ht⟩ := isPrefixOf_exists_append hx
      refine (hslash ?_).elim
      rw [ht]
      exact List.mem_append_left _ (by decide)
  · intro hw
    rcases clean_domain_inv h with ⟨hs, hr⟩ | ⟨n, hn, hns, hr⟩
    · subst hr
      simp [wwwDot, List.isPrefixOf] at hw
    · subst hr
      by_cases hwn : wwwDot.isPrefixOf n = true
      · refine ⟨n, hn, hwn, ?_⟩
        unfold www_strip
        rw [if_pos hwn]
      · unfold www_strip at hw
        rw [if_neg hwn] at hw
        exact absurd hw hwn

/-- Witness for the amended C5 at the concrete input `www.www.a.com`. -/
theorem C5_amended_witness :
    clean_domain (("www.www.a.com").data) = some (("www.a.com").data) ∧
    ('/' ∉ (("www.a.com").data) ∧
     (("www.a.com").data : Str).getLast? ≠ some '/' ∧
     schemeHttp.isPrefixOf (("www.a.com").data) = false ∧
     schemeHttps.isPrefixOf (("www.a.com").data) = false ∧
     (wwwDot.isPrefixOf (("www.a.com").data) = true →
       ∃ n, netloc_of (("www.www.a.com").data) = some n ∧
         wwwDot.isPrefixOf n = true ∧ (("www.a.com").data : Str) = n.drop 4)) :=
  ⟨by decide, C5_amended _ _ (by decide)⟩

/-- C1: for every input file, provided no lookup crashes the run (the
script aborts on a 2xx body outside the documented object envelope), each
distinct cleaned domain is the Domain Searched value of exactly one data
row, and the data-row count equals the distinct-domain count. -/
theorem C1_one_row_per_domain (lines ds : List Str)
    (respond : Str → RequestOutcome)
    (hread : read_domains_from_file lines = some ds)
    (hok : ∀ d ∈ ds, (lookup_row respond d).isSome) :
    (run_rows respond ds).length = ds.length ∧
    ∀ d ∈ ds,
      (run_rows respond ds).countP (fun r => decide (r.domainSearched = d)) = 1 := by
  have hn := read_domains_nodup hread
  have hne := read_domains_ne_nil hread
  exact ⟨run_rows_length hne hok, fun d hd => run_rows_countP hn hne hok hd⟩

/-- Witness for C1 at the spec's deduplication scenario
`a.com, a.com, www.a.com`, all lookups timing out. -/
theorem C1_one_row_per_domain_witness :
    read_domains_from_file
        [("a.com").data, ("a.com").data, ("www.a.com").data] =
      some [("a.com").data] ∧
    (run_rows (fun _ => RequestOutcome.timeout) [("a.com").data]).length = 1 ∧
    (run_rows (fun _ => RequestOutcome.timeout) [("a.com").data]).countP
      (fun r => decide (r.domainSearched = ("a.com").data)) = 1 := by
  have h := C1_one_row_per_domain
    [("a.com").data, ("a.com").data, ("www.a.com").data]
    [("a.com").data] (fun _ => RequestOutcome.timeout)
    (by decide) (fun d _ => rfl)
  exact ⟨by decide, h.1, h.2 (("a.com").data) (by decide)⟩

/-- C6: normalization preserves letter case — cleaning
`https://www.Example.com/` yields `Example.com` — and deduplication is
case-sensitive: two lines whose cleaned forms are distinct, even when
they differ only in letter case, are both kept, each producing exactly
one data row of its own. -/
theorem C6_case_sensitive :
    clean_domain (("https://www.Example.com/").data) =
      some (("Example.com").data) ∧
    ∀ (lines : List Str) (l1 l2 d1 d2 : Str) (ds : List Str)
      (respond : Str → RequestOutcome),
      l1 ∈ lines → l2 ∈ lines →
      clean_domain (str_strip l1) = some d1 →
      clean_domain (str_strip l2) = some d2 →
      d1 ≠ [] → d2 ≠ [] → d1 ≠ d2 →
      d1.map lowerCode = d2.map lowerCode →
      read_domains_from_file lines = some ds →
      (∀ d ∈ ds, (lookup_row respond d).isSome) →
      d1 ∈ ds ∧ d2 ∈ ds ∧
      (run_rows respond ds).countP (fun r => decide (r.domainSearched = d1)) = 1 ∧
      (run_rows respond ds).countP (fun r => decide (r.domainSearched = d2)) = 1 := by
  refine ⟨by decide, ?_⟩
  intro lines l1 l2 d1 d2 ds respond h1 h2 hc1 hc2 hne1 hne2 _ _ hread hok
  have hm1 : d1 ∈ ds := read_domains_mem hread h1 hc1 hne1
  have hm2 : d2 ∈ ds := read_domains_mem hread h2 hc2 hne2
  have hn := read_domains_nodup hread
  have hnn := read_domains_ne_nil hread
  exact ⟨hm1, hm2, run_rows_countP hn hnn hok hm1, run_rows_countP hn hnn hok hm2⟩

/-- Witness for C6 on the file `Example.com, example.com`, whose two
lines normalize to case-distinct domains. -/
theorem C6_case_sensitive_witness :
    (("Example.com").data : Str) ≠ ("example.com").data ∧
    (("Example.com").data : Str).map lowerCode =
      (("example.com").data : Str).map lowerCode ∧
    read_domains_from_file [("Example.com").data, ("example.com").data] =
      some [("Example.com").data, ("example.com").data] ∧
    (("Example.com").data : Str) ∈
      [("Example.com").data, ("example.com").data] ∧
    (("example.com").data : Str) ∈
      [("Example.com").data, ("example.com").data] ∧
    (run_rows (fun _ => RequestOutcome.timeout)
        [("Example.com").data, ("example.com").data]).countP
      (fun r => decide (r.domainSearched = ("Example.com").data)) = 1 ∧
    (run_rows (fun _ => RequestOutcome.timeout)
        [("Example.com").data, ("example.com").data]).countP
      (fun r => decide (r.domainSearched = ("example.com").data)) = 1 := by
  have h := C6_case_sensitive.2
    [("Example.com").data, ("example.com").data]
    (("Example.com").data) (("example.com").data)
    (("Example.com").data) (("example.com").data)
    [("Example.com").data, ("example.com").data]
    (fun _ => RequestOutcome.timeout)
    (by decide) (by decide) (by decide) (by decide)
    (by decide) (by decide) (by decide) (by decide)
    (by decide) (fun d _ => rfl)
  exact ⟨by decide, by decide, by decide, h.1, h.2.1, h.2.2.1, h.2.2.2⟩

/-- C3: a 2xx response whose JSON body has `success == true` and a
non-null object `result` produces the Found row: Search Success is the
string True, the person columns take `result.personFullName`,
`result.email`, `result.personJobTitle`, `result.personLinkedinUrl`,
each defaulting to the sentinel N/A when missing, and Email Verified
takes `result.emailVerified` defaulting to the boolean false. -/
theorem C3_found_row (d : Str) (fs person : List (Str × Json))
    (hs : jget fs kSuccess = some (Json.bool true))
    (hr : jget fs kResult = some (Json.obj person)) :
    process_response d
        (search_decision_maker (RequestOutcome.success (Json.obj fs))) =
      some { domainSearched := d
             categorySearched := category
             foundName := (jget person (("personFullName").data)).getD NA
             foundEmail := (jget person (("email").data)).getD NA
             emailVerified :=
               (jget person (("emailVerified").data)).getD (Json.bool false)
             jobTitle := (jget person (("personJobTitle").data)).getD NA
             linkedinUrl := (jget person (("personLinkedinUrl").data)).getD NA
             searchSuccess := ("True").data
             apiErrorType := NA
             apiErrorExplained := NA } :=
  process_found hs hr

/-- Witness for C3 at the spec's Jane Doe scenario. -/
theorem C3_found_row_witness :
    jget janeFields kSuccess = some (Json.bool true) ∧
    jget janeFields kResult = some (Json.obj janePerson) ∧
    process_response (("a.com").data)
        (search_decision_maker (RequestOutcome.success (Json.obj janeFields))) =
      some { domainSearched := ("a.com").data
             categorySearched := category
             foundName := (jget janePerson (("personFullName").data)).getD NA
             foundEmail := (jget janePerson (("email").data)).getD NA
             emailVerified :=
               (jget janePerson (("emailVerified").data)).getD (Json.bool false)
             jobTitle := (jget janePerson (("personJobTitle").data)).getD NA
             linkedinUrl := (jget janePerson (("personLinkedinUrl").data)).getD NA
             searchSuccess := ("True").data
             apiErrorType := NA
             apiErrorExplained := NA } ∧
    (jget janePerson (("email").data)).getD NA =
      Json.str (("jane@a.com").data) ∧
    (jget janePerson (("emailVerified").data)).getD (Json.bool false) =
      Json.bool true :=
  ⟨rfl, rfl, C3_found_row (("a.com").data) janeFields janePerson rfl rfl,
   rfl, rfl⟩

/-- C7: a 2xx JSON response with `success == false` produces an error
row whose API Error Type is the top-level `error` field, defaulting to
`Unknown` when absent, and whose API Error Explanation is the top-level
`error_explained` field, defaulting to `No explanation provided.` when
absent. -/
theorem C7_api_error_fields (d : Str) (fs : List (Str × Json))
    (hs : jget fs kSuccess = some (Json.bool false)) :
    process_response d
        (search_decision_maker (RequestOutcome.success (Json.obj fs))) =
      some { domainSearched := d
             categorySearched := category
             foundName := NA
             foundEmail := NA
             emailVerified := NA
             jobTitle := NA
             linkedinUrl := NA
             searchSuccess := ("False").data
             apiErrorType :=
               (jget fs kError).getD (Json.str (("Unknown").data))
             apiErrorExplained :=
               (jget fs kErrorExplained).getD
                 (Json.str (("No explanation provided.").data)) } :=
  process_api_error hs

/-- Witness for C7 at the spec's `not_found` scenario. -/
theorem C7_api_error_fields_witness :
    jget nfFields kSuccess = some (Json.bool false) ∧
    process_response (("a.com").data)
        (search_decision_maker (RequestOutcome.success (Json.obj nfFields))) =
      some { domainSearched := ("a.com").data
             categorySearched := category
             foundName := NA
             foundEmail := NA
             emailVerified := NA
             jobTitle := NA
             linkedinUrl := NA
             searchSuccess := ("False").data
             apiErrorType :=
               (jget nfFields kError).getD (Json.str (("Unknown").data))
             apiErrorExplained :=
               (jget nfFields kErrorExplained).getD
                 (Json.str (("No explanation provided.").data)) } ∧
    (jget nfFields kError).getD (Json.str (("Unknown").data)) =
      Json.str (("not_found").data) :=
  ⟨rfl, C7_api_error_fields (("a.com").data) nfFields rfl, rfl⟩

/-- C2 as stated is false: the script can generate the error kind
`request_exception` — here a 404 whose JSON error body is an empty
object, so the value is not a pass-through of the remote body (which has
no `error` field) and is not in the claimed list of kinds. -/
theorem C2_counterexample :
    (process_response (("a.com").data)
        (search_decision_maker reqExcEmptyBody)).map (fun r => r.apiErrorType) =
      some (Json.str (("request_exception").data)) ∧
    body_error_field reqExcEmptyBody = none ∧
    (("request_exception").data) ∉ listed_kinds :=
  ⟨rfl, rfl, by decide⟩

/-- C2 amended: every API Error Type value written to a row is the
sentinel N/A (successful row), one of the script-generated kinds
timeout, connection_error, api_error, unexpected_error, no_result_found,
request_exception or Unknown, or a pass-through of the remote response
body's `error` field. -/
theorem C2_amended (d : Str) (o : RequestOutcome) (row : Row)
    (h : process_response d (search_decision_maker o) = some row) :
    row.apiErrorType = NA ∨
    (∃ k, k ∈ actual_kinds ∧ row.apiErrorType = Json.str k) ∨
    (∃ v, body_error_field o = some v ∧ row.apiErrorType = v) := by
  rcases process_search_inv h with ⟨p, rfl⟩ | ⟨fs, hfs, hsf, rfl⟩ | rfl
  · exact Or.inl rfl
  · rcases search_error_shape hfs with ⟨k, hk, he⟩ | ⟨v, hb, he⟩ | he
    · refine Or.inr (Or.inl ⟨k, hk, ?_⟩)
      show (jget fs kError).getD (Json.str (("Unknown").data)) = Json.str k
      rw [he]
      rfl
    · refine Or.inr (Or.inr ⟨v, hb, ?_⟩)
      show (jget fs kError).getD (Json.str (("Unknown").data)) = v
      rw [he]
      rfl
    · refine Or.inr (Or.inl ⟨("Unknown").data, by decide, ?_⟩)
      show (jget fs kError).getD (Json.str (("Unknown").data)) =
        Json.str (("Unknown").data)
      rw [he]
      rfl
  · exact Or.inr (Or.inl ⟨("no_result_found").data, by decide, rfl⟩)

/-- Witness for the amended C2 at a timed-out lookup. -/
theorem C2_amended_witness :
    process_response (("a.com").data)
        (search_decision_maker RequestOutcome.timeout) = some timeoutRow ∧
    (timeoutRow.apiErrorType = NA ∨
     (∃ k, k ∈ actual_kinds ∧ timeoutRow.apiErrorType = Json.str k) ∨
     (∃ v, body_error_field RequestOutcome.timeout = some v ∧
        timeoutRow.apiErrorType = v)) :=
  ⟨rfl, C2_amended (("a.com").data) RequestOutcome.timeout timeoutRow rfl⟩

/-- C9 as stated is false: when the remote 2xx body itself carries the
literal `N/A` in its error fields, the written row has Search Success
False while both error cells equal the sentinel N/A. -/
theorem C9_counterexample :
    (process_response (("a.com").data)
        (search_decision_maker (RequestOutcome.success (Json.obj naFields)))).map
      (fun r => (r.searchSuccess, r.apiErrorType, r.apiErrorExplained)) =
      some (((("False").data : Str), NA, NA)) ∧
    (("False").data : Str) ≠ ("True").data :=
  ⟨rfl, by decide⟩

/-- C9 amended: a row with Search Success True always has both error
cells equal to N/A; a row with Search Success False carries a non-N/A
error type unless the remote body itself supplied the literal `N/A` as
its `error` field. -/
theorem C9_amended (d : Str) (o : RequestOutcome) (row : Row)
    (h : process_response d (search_decision_maker o) = some row) :
    (row.searchSuccess = ("True").data →
       row.apiErrorType = NA ∧ row.apiErrorExplained = NA) ∧
    (row.searchSuccess ≠ ("True").data →
       row.apiErrorType ≠ NA ∨ body_error_field o = some NA) := by
  have hkna : ∀ x ∈ actual_kinds, x ≠ ("N/A").data := by decide
  rcases process_search_inv h with ⟨p, rfl⟩ | ⟨fs, hfs, hsf, rfl⟩ | rfl
  · exact ⟨fun _ => ⟨rfl, rfl⟩, fun hne => absurd rfl hne⟩
  · constructor
    · intro habs
      have habs' : (("False").data : Str) = ("True").data := habs
      exact absurd habs' (by decide)
    · intro _
      rcases search_error_shape hfs with ⟨k, hk, he⟩ | ⟨v, hb, he⟩ | he
      · left
        show (jget fs kError).getD (Json.str (("Unknown").data)) ≠ NA
        rw [he]
        intro habs
        injection habs with hk'
        exact hkna k hk hk'
      · by_cases hv : v = NA
        · right
          rw [hb, hv]
        · left
          show (jget fs kError).getD (Json.str (("Unknown").data)) ≠ NA
          rw [he]
          simpa using hv
      · left
        show (jget fs kError).getD (Json.str (("Unknown").data)) ≠ NA
        rw [he]
        intro habs
        injection habs with hk'
        exact absurd hk' (by decide)
  · constructor
    · intro habs
      have habs' : (("False").data : Str) = ("True").data := habs
      exact absurd habs' (by decide)
    · intro _
      left
      show Json.str (("no_result_found").data) ≠ NA
      intro habs
      injection habs with hk'
      exact absurd hk' (by decide)

/-- Witness for the amended C9 at a connection failure. -/
theorem C9_amended_witness :
    process_response (("b.com").data)
        (search_decision_maker RequestOutcome.connError) = some connRow ∧
    ((connRow.searchSuccess = ("True").data →
        connRow.apiErrorType = NA ∧ connRow.apiErrorExplained = NA) ∧
     (connRow.searchSuccess ≠ ("True").data →
        connRow.apiErrorType ≠ NA ∨
          body_error_field RequestOutcome.connError = some NA)) :=
  ⟨rfl, C9_amended (("b.com").data) RequestOutcome.connError connRow rfl⟩

end HrFinder
